import Mathlib

/-!
Verification of the digital-wallet ledger core.

This file gives a shallow embedding of the transaction/ledger core of the
repository (the `TransactionService` business layer together with the
`AccountModel` / `TransactionModel` persistence wrappers it calls), and
proves or refutes the specified properties of deposits, withdrawals,
transfers, reversals, and the per-user transaction history.

Modelling conventions:
* Monetary values (`amount`, `balance`) are integers (the source stores
  2-fractional-digit decimals; all claimed properties are about their
  additive structure and ordering, which `Int` models exactly).
* Identifiers and emails are `String`s, as in the source; the source's
  JavaScript falsiness checks on ids (`if (!userId || ...)`) are modelled
  as comparisons with the empty string.
* Each `await`ed storage call in a service method is numbered in execution
  order, and every service method takes a `failAt : Option Nat` oracle:
  `failAt = some k` means the k-th storage call throws (is caught by the
  method's `catch`, which returns `TRANSACTION_FAILED`); effects of calls
  before k persist, because the source performs its writes as separate
  `await`s with no surrounding database transaction.  `failAt = none` is
  the failure-free (deterministic) semantics.
* `AccountModel.updateBalance` returns `none` when no row matches the id
  (Prisma's `update` throws in that case); the caller's `catch` turns this
  into `TRANSACTION_FAILED`, again keeping earlier effects.
-/

namespace DigitalWallet

/-- Transaction type enum from the Prisma schema. -/
inductive TxnType where
  | DEPOSIT
  | WITHDRAW
  | TRANSFER
  | REVERSAL
  deriving DecidableEq

/-- `User` row (only the fields the ledger core reads). -/
structure User where
  id : String
  email : String
  deriving DecidableEq

/-- `Account` row from the Prisma schema. -/
structure Account where
  id : String
  userId : String
  balance : Int
  createdAt : Nat
  deriving DecidableEq

/-- `Transaction` row from the Prisma schema. -/
structure Txn where
  id : String
  amount : Int
  type : TxnType
  description : String
  createdAt : Nat
  accountId : String
  senderAccountId : Option String
  receiverAccountId : Option String
  reversedTransactionId : Option String
  deriving DecidableEq

/-- The relational store: the two tables the core touches, the users they
reference, plus counters supplying fresh ids and timestamps. -/
structure DB where
  users : List User
  accounts : List Account
  transactions : List Txn
  nextTxnId : Nat
  nextAccountId : Nat
  now : Nat
  deriving DecidableEq

/-- Error messages of the source (`ERROR_MESSAGES` constants plus the two
inline strings used by `transfer`). -/
def ERROR_MESSAGES.INVALID_DATA : String := "Dados inválidos"

def ERROR_MESSAGES.INVALID_AMOUNT : String := "Valor inválido"

def ERROR_MESSAGES.ACCOUNT_NOT_FOUND : String := "Conta não encontrada"

def ERROR_MESSAGES.TRANSACTION_NOT_FOUND : String := "Transação não encontrada"

def ERROR_MESSAGES.INSUFFICIENT_BALANCE : String := "Saldo insuficiente"

def ERROR_MESSAGES.TRANSACTION_FAILED : String := "Falha na transação"

def ERROR_MESSAGES.TRANSACTION_ALREADY_REVERSED : String := "Esta transação já foi estornada"

def ERROR_MESSAGES.ONLY_TRANSFERS_CAN_BE_REVERSED : String := "Apenas transferências podem ser estornadas"

def ERROR_MESSAGES.ONLY_SENDER_CAN_REVERSE : String := "Você só pode estornar transferências que você enviou"

def ERROR_MESSAGES.RECIPIENT_NOT_FOUND : String := "Usuário destinatário não encontrado"

def ERROR_MESSAGES.SAME_ACCOUNT_TRANSFER : String := "Não é possível transferir para a mesma conta"

/-- `ServiceResult` of the source, specialised to its transaction payload. -/
inductive ServiceResult where
  | ok (data : Txn)
  | err (error : String)
  deriving DecidableEq

/-- JavaScript `x || fallback` on an optional string (empty string is falsy). -/
def orDefault (d : Option String) (fallback : String) : String :=
  match d with
  | some s => if s = "" then fallback else s
  | none => fallback

/-- `AccountModel.findByUserIdAndId`: `findFirst` on id and owner. -/
def AccountModel.findByUserIdAndId (db : DB) (userId accountId : String) :
    Option Account :=
  db.accounts.find? (fun a => decide (a.id = accountId ∧ a.userId = userId))

/-- `AccountModel.findByUserId`: all accounts of a user.  The source orders
them by `createdAt` descending; the only caller searches the list for a
unique account id, so the ordering is irrelevant and not modelled. -/
def AccountModel.findByUserId (db : DB) (userId : String) : List Account :=
  db.accounts.filter (fun a => decide (a.userId = userId))

/-- `AccountModel.findByUserEmail`: `findFirst` account whose related user
has the given email. -/
def AccountModel.findByUserEmail (db : DB) (email : String) : Option Account :=
  db.accounts.find? (fun a =>
    match db.users.find? (fun u => decide (u.id = a.userId)) with
    | some u => decide (u.email = email)
    | none => false)

/-- The per-row effect of `balance: { increment: amount }` on the row with
the given id. -/
def AccountModel.applyIncrement (id : String) (amount : Int) (a : Account) :
    Account :=
  if a.id = id then { a with balance := a.balance + amount } else a

/-- `AccountModel.updateBalance`: `update` with `balance: { increment }`.
Prisma throws if no row matches the id, modelled as `none`. -/
def AccountModel.updateBalance (db : DB) (id : String) (amount : Int) :
    Option DB :=
  if db.accounts.any (fun a => decide (a.id = id)) then
    some { db with
      accounts := db.accounts.map (AccountModel.applyIncrement id amount) }
  else none

/-- `AccountService.create`: a fresh account with balance 0. -/
def AccountService.create (db : DB) (userId : String) : Account × DB :=
  let a : Account :=
    { id := "acct-" ++ toString db.nextAccountId
      userId := userId
      balance := 0
      createdAt := db.now }
  (a, { db with
        accounts := db.accounts ++ [a]
        nextAccountId := db.nextAccountId + 1
        now := db.now + 1 })

/-- `TransactionCreateData` of the source. -/
structure TransactionCreateData where
  amount : Int
  type : TxnType
  description : String
  accountId : String
  senderAccountId : Option String := none
  receiverAccountId : Option String := none
  reversedTransactionId : Option String := none

/-- The row `TransactionModel.create` inserts (fresh uuid and `now()`
timestamp modelled by the store's counters). -/
def TransactionModel.newTxn (db : DB) (data : TransactionCreateData) : Txn :=
  { id := "txn-" ++ toString db.nextTxnId
    amount := data.amount
    type := data.type
    description := data.description
    createdAt := db.now
    accountId := data.accountId
    senderAccountId := data.senderAccountId
    receiverAccountId := data.receiverAccountId
    reversedTransactionId := data.reversedTransactionId }

/-- The store after `TransactionModel.create` inserts its row. -/
def TransactionModel.insert (db : DB) (data : TransactionCreateData) : DB :=
  { db with
    transactions := db.transactions ++ [TransactionModel.newTxn db data]
    nextTxnId := db.nextTxnId + 1
    now := db.now + 1 }

/-- `TransactionModel.create`: insert a row, returning it.  The service
methods below use the two projections `newTxn` / `insert` directly. -/
def TransactionModel.create (db : DB) (data : TransactionCreateData) :
    Txn × DB :=
  (TransactionModel.newTxn db data, TransactionModel.insert db data)

/-- `TransactionModel.findById` (`findUnique` on id). -/
def TransactionModel.findById (db : DB) (id : String) : Option Txn :=
  db.transactions.find? (fun t => decide (t.id = id))

/-- Number of REVERSAL rows whose `reversedTransactionId` is the given id
(the `count` query inside `TransactionModel.hasBeenReversed`). -/
def reversalCount (db : DB) (transactionId : String) : Nat :=
  (db.transactions.filter (fun t =>
    decide (t.type = TxnType.REVERSAL ∧
            t.reversedTransactionId = some transactionId))).length

/-- `TransactionModel.hasBeenReversed`: that count is positive. -/
def TransactionModel.hasBeenReversed (db : DB) (transactionId : String) :
    Bool :=
  decide (0 < reversalCount db transactionId)

/-- `Validator.isValidEmail`, the test of
the anchored pattern: one or more non-space non-at characters, an at sign,
then a domain (no spaces, no further at sign) containing a dot that is
neither its first nor its last character. -/
def Validator.isValidEmail (email : String) : Bool :=
  match email.data.splitOn '@' with
  | [localPart, domain] =>
      decide (localPart ≠ []) &&
      localPart.all (fun c => !c.isWhitespace) &&
      decide (domain ≠ []) &&
      domain.all (fun c => !c.isWhitespace) &&
      (List.range domain.length).any (fun i =>
        decide (domain.getD i ' ' = '.' ∧ 0 < i ∧ i + 1 < domain.length))
  | _ => false

/-- `DepositData` of the source (also used for withdrawals, whose
`WithdrawData` has identical fields). -/
structure DepositData where
  accountId : String
  amount : Int
  description : Option String := none

/-- `TransferData` of the source. -/
structure TransferData where
  sourceAccountId : String
  targetEmail : String
  amount : Int
  description : Option String := none

/-- The row data `deposit` passes to `TransactionModel.create`. -/
def depositCreateData (data : DepositData) : TransactionCreateData :=
  { amount := data.amount
    type := TxnType.DEPOSIT
    description := orDefault data.description "Depósito"
    accountId := data.accountId }

/-- The row data `withdraw` passes to `TransactionModel.create`. -/
def withdrawCreateData (data : DepositData) : TransactionCreateData :=
  { amount := data.amount
    type := TxnType.WITHDRAW
    description := orDefault data.description "Saque"
    accountId := data.accountId }

/-- The row data `transfer` passes to `TransactionModel.create` once the
target account id has been resolved from the target email. -/
def transferCreateData (data : TransferData) (targetAccountId : String) :
    TransactionCreateData :=
  { amount := data.amount
    type := TxnType.TRANSFER
    description := orDefault data.description "Transferência"
    accountId := data.sourceAccountId
    senderAccountId := some data.sourceAccountId
    receiverAccountId := some targetAccountId }

/-- The row data `reverseTransaction` passes to `TransactionModel.create`:
sender and receiver of the original are swapped, and the new row points at
the original via `reversedTransactionId`.  The `getD ""` models the
source's non-null assertion `originalTransaction.senderAccountId!`; in the
only branch that uses it, the ownership check has already found a user
account whose id equals `senderAccountId`, so the option is `some`. -/
def reversalCreateData (transactionId : String) (originalTransaction : Txn) :
    TransactionCreateData :=
  { amount := originalTransaction.amount
    type := TxnType.REVERSAL
    description := "Estorno da transação " ++ transactionId
    accountId := (originalTransaction.senderAccountId).getD ""
    senderAccountId := originalTransaction.receiverAccountId
    receiverAccountId := originalTransaction.senderAccountId
    reversedTransactionId := some transactionId }

namespace TransactionService

/-- `TransactionService.deposit`.  Storage calls in order:
0 `AccountService.findByUserIdAndId`, 1 `TransactionModel.create`,
2 `AccountModel.updateBalance`. -/
def deposit (userId : String) (data : DepositData) (failAt : Option Nat)
    (db : DB) : ServiceResult × DB :=
  if userId = "" ∨ data.accountId = "" then
    (.err ERROR_MESSAGES.INVALID_DATA, db)
  else if data.amount ≤ 0 then
    (.err ERROR_MESSAGES.INVALID_AMOUNT, db)
  else if failAt = some 0 then
    (.err ERROR_MESSAGES.TRANSACTION_FAILED, db)
  else match AccountModel.findByUserIdAndId db userId data.accountId with
  | none => (.err ERROR_MESSAGES.ACCOUNT_NOT_FOUND, db)
  | some _ =>
    if failAt = some 1 then (.err ERROR_MESSAGES.TRANSACTION_FAILED, db)
    else if failAt = some 2 then
      (.err ERROR_MESSAGES.TRANSACTION_FAILED,
       TransactionModel.insert db (depositCreateData data))
    else match AccountModel.updateBalance
        (TransactionModel.insert db (depositCreateData data))
        data.accountId data.amount with
    | none => (.err ERROR_MESSAGES.TRANSACTION_FAILED,
               TransactionModel.insert db (depositCreateData data))
    | some db2 => (.ok (TransactionModel.newTxn db (depositCreateData data)), db2)

/-- `TransactionService.withdraw`.  Same call order as `deposit`; the
balance update is by `-amount` and, deliberately, there is no balance
check (negative balances are allowed). -/
def withdraw (userId : String) (data : DepositData) (failAt : Option Nat)
    (db : DB) : ServiceResult × DB :=
  if userId = "" ∨ data.accountId = "" then
    (.err ERROR_MESSAGES.INVALID_DATA, db)
  else if data.amount ≤ 0 then
    (.err ERROR_MESSAGES.INVALID_AMOUNT, db)
  else if failAt = some 0 then
    (.err ERROR_MESSAGES.TRANSACTION_FAILED, db)
  else match AccountModel.findByUserIdAndId db userId data.accountId with
  | none => (.err ERROR_MESSAGES.ACCOUNT_NOT_FOUND, db)
  | some _ =>
    if failAt = some 1 then (.err ERROR_MESSAGES.TRANSACTION_FAILED, db)
    else if failAt = some 2 then
      (.err ERROR_MESSAGES.TRANSACTION_FAILED,
       TransactionModel.insert db (withdrawCreateData data))
    else match AccountModel.updateBalance
        (TransactionModel.insert db (withdrawCreateData data))
        data.accountId (-data.amount) with
    | none => (.err ERROR_MESSAGES.TRANSACTION_FAILED,
               TransactionModel.insert db (withdrawCreateData data))
    | some db2 => (.ok (TransactionModel.newTxn db (withdrawCreateData data)), db2)

/-- `TransactionService.transfer`.  Storage calls in order:
0 `findByUserIdAndId`, 1 `findByUserEmail`, 2 `TransactionModel.create`,
3 `updateBalance` of the source (debit), 4 `updateBalance` of the target
(credit).  Note the source checks the balance before resolving the target
account, hence before the same-account check. -/
def transfer (userId : String) (data : TransferData) (failAt : Option Nat)
    (db : DB) : ServiceResult × DB :=
  if userId = "" ∨ data.sourceAccountId = "" ∨ data.targetEmail = "" then
    (.err ERROR_MESSAGES.INVALID_DATA, db)
  else if data.amount ≤ 0 then
    (.err ERROR_MESSAGES.INVALID_AMOUNT, db)
  else if ¬ Validator.isValidEmail data.targetEmail then
    (.err ERROR_MESSAGES.INVALID_DATA, db)
  else if failAt = some 0 then
    (.err ERROR_MESSAGES.TRANSACTION_FAILED, db)
  else match AccountModel.findByUserIdAndId db userId data.sourceAccountId with
  | none => (.err ERROR_MESSAGES.ACCOUNT_NOT_FOUND, db)
  | some sourceAccount =>
    if sourceAccount.balance < data.amount then
      (.err ERROR_MESSAGES.INSUFFICIENT_BALANCE, db)
    else if failAt = some 1 then
      (.err ERROR_MESSAGES.TRANSACTION_FAILED, db)
    else match AccountModel.findByUserEmail db data.targetEmail with
    | none => (.err ERROR_MESSAGES.RECIPIENT_NOT_FOUND, db)
    | some targetAccount =>
      if data.sourceAccountId = targetAccount.id then
        (.err ERROR_MESSAGES.SAME_ACCOUNT_TRANSFER, db)
      else if failAt = some 2 then
        (.err ERROR_MESSAGES.TRANSACTION_FAILED, db)
      else if failAt = some 3 then
        (.err ERROR_MESSAGES.TRANSACTION_FAILED,
         TransactionModel.insert db (transferCreateData data targetAccount.id))
      else match AccountModel.updateBalance
          (TransactionModel.insert db (transferCreateData data targetAccount.id))
          data.sourceAccountId (-data.amount) with
      | none => (.err ERROR_MESSAGES.TRANSACTION_FAILED,
                 TransactionModel.insert db (transferCreateData data targetAccount.id))
      | some db2 =>
        if failAt = some 4 then
          (.err ERROR_MESSAGES.TRANSACTION_FAILED, db2)
        else match AccountModel.updateBalance db2 targetAccount.id data.amount with
        | none => (.err ERROR_MESSAGES.TRANSACTION_FAILED, db2)
        | some db3 =>
          (.ok (TransactionModel.newTxn db (transferCreateData data targetAccount.id)), db3)

/-- `TransactionService.reverseTransaction`.  Storage calls in order:
0 `TransactionModel.findById`, 1 `hasBeenReversed`,
2 `AccountModel.findByUserId`, 3 `TransactionModel.create`,
4 `updateBalance` of the original sender (credit),
5 `updateBalance` of the original receiver (debit).
The `getD ""` models the source's non-null assertion
`originalTransaction.senderAccountId!`; in the branch where it is used the
ownership check has already found a user account whose id equals
`senderAccountId`, so the option is `some`. -/
def reverseTransaction (userId transactionId : String) (failAt : Option Nat)
    (db : DB) : ServiceResult × DB :=
  if userId = "" ∨ transactionId = "" then
    (.err ERROR_MESSAGES.INVALID_DATA, db)
  else if failAt = some 0 then
    (.err ERROR_MESSAGES.TRANSACTION_FAILED, db)
  else match TransactionModel.findById db transactionId with
  | none => (.err ERROR_MESSAGES.TRANSACTION_NOT_FOUND, db)
  | some originalTransaction =>
    if originalTransaction.type ≠ TxnType.TRANSFER then
      (.err ERROR_MESSAGES.ONLY_TRANSFERS_CAN_BE_REVERSED, db)
    else if failAt = some 1 then
      (.err ERROR_MESSAGES.TRANSACTION_FAILED, db)
    else if TransactionModel.hasBeenReversed db transactionId then
      (.err ERROR_MESSAGES.TRANSACTION_ALREADY_REVERSED, db)
    else if failAt = some 2 then
      (.err ERROR_MESSAGES.TRANSACTION_FAILED, db)
    else match (AccountModel.findByUserId db userId).find? (fun a =>
        decide (some a.id = originalTransaction.senderAccountId)) with
    | none => (.err ERROR_MESSAGES.ONLY_SENDER_CAN_REVERSE, db)
    | some _userAccount =>
      if failAt = some 3 then
        (.err ERROR_MESSAGES.TRANSACTION_FAILED, db)
      else if failAt = some 4 then
        (.err ERROR_MESSAGES.TRANSACTION_FAILED,
         TransactionModel.insert db (reversalCreateData transactionId originalTransaction))
      else match AccountModel.updateBalance
          (TransactionModel.insert db (reversalCreateData transactionId originalTransaction))
          ((originalTransaction.senderAccountId).getD "")
          originalTransaction.amount with
      | none => (.err ERROR_MESSAGES.TRANSACTION_FAILED,
                 TransactionModel.insert db (reversalCreateData transactionId originalTransaction))
      | some db2 =>
        if failAt = some 5 then
          (.err ERROR_MESSAGES.TRANSACTION_FAILED, db2)
        else match AccountModel.updateBalance db2
            ((originalTransaction.receiverAccountId).getD "")
            (-originalTransaction.amount) with
        | none => (.err ERROR_MESSAGES.TRANSACTION_FAILED, db2)
        | some db3 =>
          (.ok (TransactionModel.newTxn db (reversalCreateData transactionId originalTransaction)), db3)

end TransactionService

end DigitalWallet

namespace DigitalWallet

def user1 : User := { id := "user-1", email := "u1@mail.com" }

def user2 : User := { id := "user-2", email := "u2@mail.com" }

def account1 (bal : Int) : Account :=
  { id := "acct-1", userId := "user-1", balance := bal, createdAt := 0 }

def account2 (bal : Int) : Account :=
  { id := "acct-2", userId := "user-2", balance := bal, createdAt := 1 }

def baseDb (b1 b2 : Int) : DB :=
  { users := [user1, user2]
    accounts := [account1 b1, account2 b2]
    transactions := []
    nextTxnId := 1
    nextAccountId := 3
    now := 10 }

end DigitalWallet
namespace DigitalWallet

/-- A TRANSFER row used by several concrete databases below. -/
def transferTxn : Txn :=
  { id := "txn-0", amount := 40, type := TxnType.TRANSFER
    description := "Transferência", createdAt := 5, accountId := "acct-1"
    senderAccountId := some "acct-1", receiverAccountId := some "acct-2"
    reversedTransactionId := none }

/-- A DEPOSIT row. -/
def depositTxn : Txn :=
  { id := "txn-d", amount := 50, type := TxnType.DEPOSIT
    description := "Depósito", createdAt := 5, accountId := "acct-1"
    senderAccountId := none, receiverAccountId := none
    reversedTransactionId := none }

/-- A REVERSAL row referencing `transferTxn`. -/
def reversalTxn : Txn :=
  { id := "txn-9", amount := 40, type := TxnType.REVERSAL
    description := "Estorno da transação txn-0", createdAt := 6
    accountId := "acct-1", senderAccountId := some "acct-2"
    receiverAccountId := some "acct-1", reversedTransactionId := some "txn-0" }

/-- Store holding one DEPOSIT record. -/
def dbWithDeposit : DB := { baseDb 100 10 with transactions := [depositTxn] }

/-- Store holding a TRANSFER that has already been reversed. -/
def dbReversedTransfer : DB :=
  { baseDb 100 50 with transactions := [transferTxn, reversalTxn] }

/-- Claim C2: reversing a transaction whose type is DEPOSIT, WITHDRAW or
REVERSAL always fails with the only-transfers-can-be-reversed error and
leaves the store untouched, for every caller. -/
theorem reverseTransaction_only_transfers (db : DB)
    (userId transactionId : String)
    (hu : userId ≠ "") (ht : transactionId ≠ "") (t : Txn)
    (hfind : TransactionModel.findById db transactionId = some t)
    (htype : t.type = TxnType.DEPOSIT ∨ t.type = TxnType.WITHDRAW ∨
             t.type = TxnType.REVERSAL) :
    TransactionService.reverseTransaction userId transactionId none db
      = (ServiceResult.err ERROR_MESSAGES.ONLY_TRANSFERS_CAN_BE_REVERSED, db) := by
  have hne : t.type ≠ TxnType.TRANSFER := by
    rcases htype with h | h | h <;> simp [h]
  unfold TransactionService.reverseTransaction
  simp [hu, ht, hfind, hne]

/-- Witness for C2: a concrete deposit cannot be reversed. -/
theorem reverseTransaction_only_transfers_witness :
    TransactionService.reverseTransaction "user-1" "txn-d" none dbWithDeposit
      = (ServiceResult.err ERROR_MESSAGES.ONLY_TRANSFERS_CAN_BE_REVERSED,
         dbWithDeposit) :=
  reverseTransaction_only_transfers dbWithDeposit "user-1" "txn-d"
    (by decide) (by decide) depositTxn (by decide) (Or.inl (by decide))

end DigitalWallet
namespace DigitalWallet

/-- Counterexample to claim C3 as stated: `transferTxn` is a TRANSFER and
caller `user-2` (the receiver) owns no account matching its sender, yet on
an already-reversed transfer the call fails with the already-reversed
error, not the only-sender-can-reverse error, because the reversal check
precedes the ownership check. -/
theorem reverseTransaction_nonowner_gets_already_reversed :
    transferTxn.type = TxnType.TRANSFER ∧
    (∀ a ∈ dbReversedTransfer.accounts,
        a.userId = "user-2" → some a.id ≠ transferTxn.senderAccountId) ∧
    TransactionService.reverseTransaction "user-2" "txn-0" none
        dbReversedTransfer
      = (ServiceResult.err ERROR_MESSAGES.TRANSACTION_ALREADY_REVERSED,
         dbReversedTransfer) ∧
    ERROR_MESSAGES.TRANSACTION_ALREADY_REVERSED ≠
      ERROR_MESSAGES.ONLY_SENDER_CAN_REVERSE := by
  refine ⟨by decide, by decide, by decide, by decide⟩

/-- Claim C3 (amended): for a TRANSFER that has not already been reversed,
a caller owning no account matching the original sender account gets the
only-sender-can-reverse error and the store is unchanged. -/
theorem reverseTransaction_sender_only (db : DB)
    (userId transactionId : String)
    (hu : userId ≠ "") (ht : transactionId ≠ "") (t : Txn)
    (hfind : TransactionModel.findById db transactionId = some t)
    (htype : t.type = TxnType.TRANSFER)
    (hnr : TransactionModel.hasBeenReversed db transactionId = false)
    (hown : ∀ a ∈ db.accounts, a.userId = userId →
        some a.id ≠ t.senderAccountId) :
    TransactionService.reverseTransaction userId transactionId none db
      = (ServiceResult.err ERROR_MESSAGES.ONLY_SENDER_CAN_REVERSE, db) := by
  have hfindnone :
      (AccountModel.findByUserId db userId).find? (fun a =>
        decide (some a.id = t.senderAccountId)) = none := by
    rw [List.find?_eq_none]
    intro a ha
    rw [AccountModel.findByUserId, List.mem_filter] at ha
    simp only [decide_eq_true_eq] at ha ⊢
    exact hown a ha.1 ha.2
  unfold TransactionService.reverseTransaction
  simp [hu, ht, hfind, htype, hnr, hfindnone]

/-- Store holding one un-reversed TRANSFER. -/
def dbWithTransfer : DB := { baseDb 60 50 with transactions := [transferTxn] }

/-- Witness for amended C3: the receiver cannot reverse a fresh transfer. -/
theorem reverseTransaction_sender_only_witness :
    TransactionService.reverseTransaction "user-2" "txn-0" none dbWithTransfer
      = (ServiceResult.err ERROR_MESSAGES.ONLY_SENDER_CAN_REVERSE,
         dbWithTransfer) :=
  reverseTransaction_sender_only dbWithTransfer "user-2" "txn-0"
    (by decide) (by decide) transferTxn (by decide) (by decide) (by decide)
    (by decide)

end DigitalWallet
namespace DigitalWallet

/-- Sum of the balances of the accounts with a given id (with unique ids,
the balance of that account, or 0 if absent). -/
def balSum (l : List Account) (j : String) : Int :=
  (l.map (fun a => if a.id = j then a.balance else 0)).sum

/-- Balance of the account with the given id in the store. -/
def balanceOf (db : DB) (j : String) : Int := balSum db.accounts j

theorem balSum_cons (a : Account) (l : List Account) (j : String) :
    balSum (a :: l) j = (if a.id = j then a.balance else 0) + balSum l j := by
  simp [balSum]

@[simp] theorem applyIncrement_id (i : String) (amt : Int) (a : Account) :
    (AccountModel.applyIncrement i amt a).id = a.id := by
  unfold AccountModel.applyIncrement
  split <;> rfl

@[simp] theorem applyIncrement_userId (i : String) (amt : Int) (a : Account) :
    (AccountModel.applyIncrement i amt a).userId = a.userId := by
  unfold AccountModel.applyIncrement
  split <;> rfl

theorem applyIncrement_of_ne {i : String} {a : Account} (h : a.id ≠ i)
    (amt : Int) : AccountModel.applyIncrement i amt a = a := by
  unfold AccountModel.applyIncrement
  simp [h]

theorem map_id_applyIncrement (l : List Account) (i : String) (amt : Int) :
    (l.map (AccountModel.applyIncrement i amt)).map (fun a => a.id)
      = l.map (fun a => a.id) := by
  rw [List.map_map]
  exact List.map_congr_left fun a _ => by simp [Function.comp]

theorem any_id_map_applyIncrement (l : List Account) (i : String) (amt : Int)
    (j : String) :
    (l.map (AccountModel.applyIncrement i amt)).any (fun a => decide (a.id = j))
      = l.any (fun a => decide (a.id = j)) := by
  rw [List.any_map]
  congr 1
  funext a
  simp [Function.comp]

/-- `updateBalance` succeeded: the result differs only in `accounts`, where
every row with the given id got the increment. -/
theorem AccountModel.updateBalance_some {db : DB} {i : String} {amt : Int}
    {db' : DB} (h : AccountModel.updateBalance db i amt = some db') :
    db' = { db with
            accounts := db.accounts.map (AccountModel.applyIncrement i amt) } := by
  unfold AccountModel.updateBalance at h
  split at h
  · exact (Option.some.inj h).symm
  · exact Option.noConfusion h

/-- `updateBalance` succeeds exactly when some row has the id. -/
theorem AccountModel.updateBalance_isSome (db : DB) (i : String) (amt : Int)
    (h : db.accounts.any (fun a => decide (a.id = i)) = true) :
    AccountModel.updateBalance db i amt
      = some { db with
               accounts := db.accounts.map (AccountModel.applyIncrement i amt) } := by
  unfold AccountModel.updateBalance
  simp [h]

theorem balSum_map_of_ne (l : List Account) {i j : String} (hji : j ≠ i)
    (amt : Int) :
    balSum (l.map (AccountModel.applyIncrement i amt)) j = balSum l j := by
  induction l with
  | nil => rfl
  | cons hd tl ih =>
    rw [List.map_cons, balSum_cons, balSum_cons, ih]
    by_cases hdj : hd.id = j
    · rw [applyIncrement_of_ne (by rw [hdj]; exact hji) amt]
    · simp [applyIncrement_id, hdj]

theorem balSum_map_nomatch (l : List Account) {i : String}
    (hno : ∀ a ∈ l, a.id ≠ i) (amt : Int) (j : String) :
    balSum (l.map (AccountModel.applyIncrement i amt)) j = balSum l j := by
  have h1 : l.map (AccountModel.applyIncrement i amt) = l.map (fun a => a) :=
    List.map_congr_left fun a ha => applyIncrement_of_ne (hno a ha) amt
  rw [h1, List.map_id']

theorem balSum_map_self (l : List Account) {i : String} (amt : Int)
    (hnd : (l.map (fun a => a.id)).Nodup) (a0 : Account) (hmem : a0 ∈ l)
    (hid : a0.id = i) :
    balSum (l.map (AccountModel.applyIncrement i amt)) i = balSum l i + amt := by
  induction l with
  | nil => cases hmem
  | cons hd tl ih =>
    simp only [List.map_cons, List.nodup_cons] at hnd
    rw [List.map_cons, balSum_cons, balSum_cons]
    rcases List.mem_cons.mp hmem with h0 | h0
    · subst h0
      have hnotl : ∀ a ∈ tl, a.id ≠ i := by
        intro a ha hai
        apply hnd.1
        rw [hid]
        exact List.mem_map.mpr ⟨a, ha, hai⟩
      rw [balSum_map_nomatch tl hnotl amt i]
      have hbump : AccountModel.applyIncrement i amt a0
          = { a0 with balance := a0.balance + amt } := by
        unfold AccountModel.applyIncrement
        simp [hid]
      rw [hbump]
      simp [hid]
      omega
    · have hdne : hd.id ≠ i := by
        intro hdi
        apply hnd.1
        rw [hdi]
        exact List.mem_map.mpr ⟨a0, h0, hid⟩
      rw [applyIncrement_of_ne hdne amt, ih hnd.2 h0]
      omega

end DigitalWallet
namespace DigitalWallet

/-- Claim C6: a successful reversal only appends the new REVERSAL row —
the original record (every field, including `reversedTransactionId`) is
untouched, and looking the original up afterwards yields exactly what it
yielded before. -/
theorem reverseTransaction_original_immutable
    (db : DB) (userId transactionId : String) (r : Txn) (db1 : DB)
    (h : TransactionService.reverseTransaction userId transactionId none db
          = (ServiceResult.ok r, db1)) :
    r.reversedTransactionId = some transactionId ∧
    db1.transactions = db.transactions ++ [r] ∧
    TransactionModel.findById db1 transactionId
      = TransactionModel.findById db transactionId := by
  unfold TransactionService.reverseTransaction at h
  split at h
  · simp at h
  split at h
  · simp at h
  split at h
  · simp at h
  rename_i t hfind
  split at h
  · simp at h
  split at h
  · simp at h
  split at h
  · simp at h
  split at h
  · simp at h
  split at h
  · simp at h
  rename_i acct hacct
  split at h
  · simp at h
  split at h
  · simp at h
  split at h
  · simp at h
  rename_i db2 hupd1
  split at h
  · simp at h
  split at h
  · simp at h
  rename_i db3 hupd2
  simp only [Prod.mk.injEq, ServiceResult.ok.injEq] at h
  obtain ⟨hr, hdb⟩ := h
  subst hdb
  subst hr
  have h2 := AccountModel.updateBalance_some hupd1
  have h3 := AccountModel.updateBalance_some hupd2
  subst h2
  subst h3
  refine ⟨?_, ?_, ?_⟩
  · simp [TransactionModel.newTxn, reversalCreateData]
  · simp [TransactionModel.insert]
  · unfold TransactionModel.findById at hfind ⊢
    simp only [TransactionModel.insert]
    rw [List.find?_append, hfind]
    rfl

/-- Witness store for C6 and C5: an un-reversed transfer whose receiver
has already spent the money (balance 0). -/
def dbPoorReceiver : DB := { baseDb 60 0 with transactions := [transferTxn] }

/-- Witness for C6: reversing the concrete transfer in `dbPoorReceiver`
appends one REVERSAL row and leaves the original row untouched. -/
theorem reverseTransaction_original_immutable_witness :
    (TransactionModel.newTxn dbPoorReceiver
        (reversalCreateData "txn-0" transferTxn)).reversedTransactionId
      = some "txn-0" ∧
    (TransactionService.reverseTransaction "user-1" "txn-0" none
        dbPoorReceiver).2.transactions
      = dbPoorReceiver.transactions ++
          [TransactionModel.newTxn dbPoorReceiver
            (reversalCreateData "txn-0" transferTxn)] ∧
    TransactionModel.findById
        (TransactionService.reverseTransaction "user-1" "txn-0" none
          dbPoorReceiver).2 "txn-0"
      = TransactionModel.findById dbPoorReceiver "txn-0" :=
  reverseTransaction_original_immutable dbPoorReceiver "user-1" "txn-0"
    (TransactionModel.newTxn dbPoorReceiver (reversalCreateData "txn-0" transferTxn))
    (TransactionService.reverseTransaction "user-1" "txn-0" none dbPoorReceiver).2
    (by decide)

end DigitalWallet
namespace DigitalWallet

@[simp] theorem TransactionModel.insert_accounts (db : DB)
    (d : TransactionCreateData) :
    (TransactionModel.insert db d).accounts = db.accounts := rfl

@[simp] theorem TransactionModel.insert_users (db : DB)
    (d : TransactionCreateData) :
    (TransactionModel.insert db d).users = db.users := rfl

theorem TransactionModel.insert_transactions (db : DB)
    (d : TransactionCreateData) :
    (TransactionModel.insert db d).transactions
      = db.transactions ++ [TransactionModel.newTxn db d] := rfl

/-- `ServiceResult.isOk`: did the operation succeed? -/
def ServiceResult.isOk : ServiceResult → Bool
  | .ok _ => true
  | .err _ => false

/-- Counterexample to claim C5 as stated: in `dbPoorReceiver` the original
receiver holds balance 0, strictly less than the transfer amount 40, yet
the reversal succeeds and drives that balance to -40 — the code performs
no balance check on reversal. -/
theorem reverseTransaction_ignores_receiver_balance :
    balanceOf dbPoorReceiver "acct-2" < transferTxn.amount ∧
    (TransactionService.reverseTransaction "user-1" "txn-0" none
        dbPoorReceiver).1.isOk = true ∧
    ((TransactionService.reverseTransaction "user-1" "txn-0" none
        dbPoorReceiver).2.accounts.map (fun a => a.balance)) = [100, -40] := by
  decide

/-- Claim C5 (amended): reversal of a transfer is not balance-checked.
Whenever the other preconditions hold (the transfer exists and is
un-reversed, the caller owns the sender account, the receiver account
exists and differs from the sender), the reversal succeeds for every
receiver balance, and simply debits the receiver by the amount — possibly
below zero. -/
theorem reverseTransaction_no_balance_check
    (db : DB) (userId transactionId : String) (t : Txn) (acct : Account)
    (rid : String)
    (hu : userId ≠ "") (ht : transactionId ≠ "")
    (hfind : TransactionModel.findById db transactionId = some t)
    (htype : t.type = TxnType.TRANSFER)
    (hnr : TransactionModel.hasBeenReversed db transactionId = false)
    (hacct : (AccountModel.findByUserId db userId).find? (fun a =>
        decide (some a.id = t.senderAccountId)) = some acct)
    (hrecv : t.receiverAccountId = some rid)
    (hrne : t.senderAccountId ≠ t.receiverAccountId)
    (b0 : Account) (hb0 : b0 ∈ db.accounts) (hb0id : b0.id = rid)
    (hNodup : (db.accounts.map (fun a => a.id)).Nodup) :
    (TransactionService.reverseTransaction userId transactionId none db).1
        = ServiceResult.ok (TransactionModel.newTxn db
            (reversalCreateData transactionId t)) ∧
    balanceOf (TransactionService.reverseTransaction userId transactionId
        none db).2 rid
      = balanceOf db rid - t.amount := by
  have hmem : acct ∈ db.accounts := by
    have hmem0 := List.mem_of_find?_eq_some hacct
    unfold AccountModel.findByUserId at hmem0
    exact (List.mem_filter.mp hmem0).1
  have hsid : t.senderAccountId = some acct.id := by
    have hpred := List.find?_some hacct
    exact (of_decide_eq_true hpred).symm
  have hne2 : rid ≠ acct.id := by
    intro hcontra
    apply hrne
    rw [hsid, hrecv, hcontra]
  have hne' : ¬ (t.type ≠ TxnType.TRANSFER) := by simp [htype]
  have hany1 : ((TransactionModel.insert db
        (reversalCreateData transactionId t)).accounts).any (fun a =>
          decide (a.id = (t.senderAccountId).getD "")) = true := by
    simp only [TransactionModel.insert, hsid, Option.getD_some]
    exact List.any_eq_true.mpr ⟨acct, hmem, by simp⟩
  have hupd1 := AccountModel.updateBalance_isSome
    (TransactionModel.insert db (reversalCreateData transactionId t))
    ((t.senderAccountId).getD "") t.amount hany1
  have hany2 : (({ TransactionModel.insert db
          (reversalCreateData transactionId t) with
        accounts := (TransactionModel.insert db
          (reversalCreateData transactionId t)).accounts.map
            (AccountModel.applyIncrement ((t.senderAccountId).getD "")
              t.amount) } : DB).accounts).any (fun a =>
          decide (a.id = (t.receiverAccountId).getD "")) = true := by
    show (((TransactionModel.insert db
        (reversalCreateData transactionId t)).accounts.map
          (AccountModel.applyIncrement ((t.senderAccountId).getD "")
            t.amount)).any (fun a =>
          decide (a.id = (t.receiverAccountId).getD ""))) = true
    rw [any_id_map_applyIncrement]
    simp only [TransactionModel.insert, hrecv, Option.getD_some]
    exact List.any_eq_true.mpr ⟨b0, hb0, by simp [hb0id]⟩
  have hupd2 := AccountModel.updateBalance_isSome
    { TransactionModel.insert db (reversalCreateData transactionId t) with
      accounts := (TransactionModel.insert db
        (reversalCreateData transactionId t)).accounts.map
          (AccountModel.applyIncrement ((t.senderAccountId).getD "")
            t.amount) }
    ((t.receiverAccountId).getD "") (-t.amount) hany2
  simp only [TransactionModel.insert_accounts, TransactionModel.insert_users]
    at hupd1 hupd2
  constructor
  · unfold TransactionService.reverseTransaction
    simp [hu, ht, hfind, hne', hnr, hacct, hupd1, hupd2]
  · unfold TransactionService.reverseTransaction
    simp [hu, ht, hfind, hne', hnr, hacct, hupd1, hupd2, balanceOf]
    rw [← List.map_map]
    rw [hrecv, hsid]
    simp only [Option.getD_some]
    rw [balSum_map_self (db.accounts.map (AccountModel.applyIncrement acct.id
          t.amount)) (-t.amount)
        (by rw [map_id_applyIncrement]; exact hNodup)
        (AccountModel.applyIncrement acct.id t.amount b0)
        (List.mem_map.mpr ⟨b0, hb0, rfl⟩) (by simp [hb0id])]
    rw [balSum_map_of_ne db.accounts hne2 t.amount]
    omega


/-- Witness for amended C5: concrete reversal with receiver balance 0
succeeds and leaves the receiver at -40. -/
theorem reverseTransaction_no_balance_check_witness :
    (TransactionService.reverseTransaction "user-1" "txn-0" none
        dbPoorReceiver).1
      = ServiceResult.ok (TransactionModel.newTxn dbPoorReceiver
          (reversalCreateData "txn-0" transferTxn)) ∧
    balanceOf (TransactionService.reverseTransaction "user-1" "txn-0" none
        dbPoorReceiver).2 "acct-2"
      = balanceOf dbPoorReceiver "acct-2" - transferTxn.amount :=
  reverseTransaction_no_balance_check dbPoorReceiver "user-1" "txn-0"
    transferTxn (account1 60) "acct-2" (by decide) (by decide) (by decide)
    (by decide) (by decide) (by decide) (by decide) (by decide)
    (account2 0) (by decide) (by decide) (by decide)

end DigitalWallet
namespace DigitalWallet

/-- Counterexample to claim C7 as stated: with source balance 0 < amount 5,
a transfer to the caller's own email fails with the insufficient-balance
error, not the same-account error, because the balance check runs before
the target account is even resolved. -/
theorem transfer_self_insufficient_balance_first :
    Validator.isValidEmail "u1@mail.com" = true ∧
    AccountModel.findByUserEmail (baseDb 0 10) "u1@mail.com"
      = some (account1 0) ∧
    TransactionService.transfer "user-1"
        { sourceAccountId := "acct-1", targetEmail := "u1@mail.com"
          amount := 5 } none (baseDb 0 10)
      = (ServiceResult.err ERROR_MESSAGES.INSUFFICIENT_BALANCE, baseDb 0 10) ∧
    ERROR_MESSAGES.INSUFFICIENT_BALANCE ≠
      ERROR_MESSAGES.SAME_ACCOUNT_TRANSFER := by
  refine ⟨by decide, by decide, by decide, by decide⟩

/-- Claim C7 (amended): a self-transfer (target email resolving to the
source account itself) fails with the same-account error whenever the
source balance covers the amount; when it does not, the insufficient-
balance check fires first instead.  Either way no state changes. -/
theorem transfer_self_rejected (db : DB) (userId : String)
    (data : TransferData) (src : Account)
    (hu : userId ≠ "") (hsrc : data.sourceAccountId ≠ "")
    (hemail : data.targetEmail ≠ "")
    (hamt : 0 < data.amount)
    (hvalid : Validator.isValidEmail data.targetEmail = true)
    (hfind : AccountModel.findByUserIdAndId db userId data.sourceAccountId
      = some src)
    (hself : AccountModel.findByUserEmail db data.targetEmail = some src)
    (hsid : src.id = data.sourceAccountId) :
    TransactionService.transfer userId data none db
      = (if src.balance < data.amount then
          (ServiceResult.err ERROR_MESSAGES.INSUFFICIENT_BALANCE, db)
        else
          (ServiceResult.err ERROR_MESSAGES.SAME_ACCOUNT_TRANSFER, db)) := by
  have hamt' : ¬ data.amount ≤ 0 := by omega
  unfold TransactionService.transfer
  by_cases hbal : src.balance < data.amount
  · simp [hu, hsrc, hemail, hamt', hvalid, hfind, hbal]
  · simp [hu, hsrc, hemail, hamt', hvalid, hfind, hself, hbal, hsid]

/-- Witness for amended C7: with sufficient balance the self-transfer hits
the same-account error. -/
theorem transfer_self_rejected_witness :
    TransactionService.transfer "user-1"
        { sourceAccountId := "acct-1", targetEmail := "u1@mail.com"
          amount := 5 } none (baseDb 100 10)
      = (if (account1 100).balance < (5 : Int) then
          (ServiceResult.err ERROR_MESSAGES.INSUFFICIENT_BALANCE,
           baseDb 100 10)
        else
          (ServiceResult.err ERROR_MESSAGES.SAME_ACCOUNT_TRANSFER,
           baseDb 100 10)) :=
  transfer_self_rejected (baseDb 100 10) "user-1"
    { sourceAccountId := "acct-1", targetEmail := "u1@mail.com", amount := 5 }
    (account1 100) (by decide) (by decide) (by decide) (by decide)
    (by decide) (by decide) (by decide) (by decide)

end DigitalWallet
namespace DigitalWallet

/-- Claim C1 (refuted by the service layer): when the storage call that
credits the target account throws (call 4), the transfer's earlier writes
are NOT rolled back — the operation reports failure, yet the TRANSFER row
is committed and the source account has been debited while the target was
never credited.  The failure-free pre-state had balances [100, 10] and no
transactions. -/
theorem transfer_partial_state_on_late_failure :
    TransactionService.transfer "user-1"
        { sourceAccountId := "acct-1", targetEmail := "u2@mail.com"
          amount := 40 } (some 4) (baseDb 100 10)
      = (ServiceResult.err ERROR_MESSAGES.TRANSACTION_FAILED,
         { baseDb 100 10 with
           accounts := [account1 60, account2 10]
           transactions := [TransactionModel.newTxn (baseDb 100 10)
             (transferCreateData
               { sourceAccountId := "acct-1", targetEmail := "u2@mail.com"
                 amount := 40 } "acct-2")]
           nextTxnId := 2
           now := 11 }) ∧
    (TransactionService.transfer "user-1"
        { sourceAccountId := "acct-1", targetEmail := "u2@mail.com"
          amount := 40 } (some 4) (baseDb 100 10)).2 ≠ baseDb 100 10 ∧
    ((TransactionService.transfer "user-1"
        { sourceAccountId := "acct-1", targetEmail := "u2@mail.com"
          amount := 40 } (some 4) (baseDb 100 10)).2.transactions.map
          (fun t => t.type)) = [TxnType.TRANSFER] := by
  refine ⟨by decide, by decide, by decide⟩

end DigitalWallet
namespace DigitalWallet

theorem find?_id_userId_map_applyIncrement (l : List Account)
    (i : String) (amt : Int) (x u : String) :
    (l.map (AccountModel.applyIncrement i amt)).find? (fun a =>
        decide (a.id = x ∧ a.userId = u))
      = (l.find? (fun a => decide (a.id = x ∧ a.userId = u))).map
          (AccountModel.applyIncrement i amt) := by
  rw [List.find?_map]
  have hfun : ((fun a => decide (a.id = x ∧ a.userId = u)) ∘
      AccountModel.applyIncrement i amt)
      = (fun a => decide (a.id = x ∧ a.userId = u)) := by
    funext a
    simp [Function.comp]
  rw [hfun]

theorem map_applyIncrement_cancel (l : List Account) (i : String)
    (amt : Int) :
    (l.map (AccountModel.applyIncrement i amt)).map
        (AccountModel.applyIncrement i (-amt)) = l := by
  rw [List.map_map]
  refine (List.map_congr_left fun a _ => ?_).trans (List.map_id' l)
  show AccountModel.applyIncrement i (-amt)
      (AccountModel.applyIncrement i amt a) = a
  by_cases h : a.id = i
  · have h1 : AccountModel.applyIncrement i amt a
        = { a with balance := a.balance + amt } := by
      unfold AccountModel.applyIncrement
      rw [if_pos h]
    have h2 : AccountModel.applyIncrement i (-amt)
        { a with balance := a.balance + amt }
        = { a with balance := a.balance + amt + -amt } := by
      unfold AccountModel.applyIncrement
      rw [if_pos (show ({ a with balance := a.balance + amt } :
        Account).id = i from h)]
    rw [h1, h2]
    have h3 : a.balance + amt + -amt = a.balance := by ring
    rw [h3]
  · rw [applyIncrement_of_ne h, applyIncrement_of_ne h]

/-- Deterministic run of a valid deposit: it succeeds and its effect is
exactly the inserted DEPOSIT row plus the increment on the account. -/
theorem TransactionService.deposit_run (db : DB) (userId : String)
    (data : DepositData) (acct : Account)
    (hu : userId ≠ "") (hacc : data.accountId ≠ "") (hamt : 0 < data.amount)
    (hfind : AccountModel.findByUserIdAndId db userId data.accountId
      = some acct) :
    TransactionService.deposit userId data none db
      = (ServiceResult.ok (TransactionModel.newTxn db (depositCreateData data)),
         { TransactionModel.insert db (depositCreateData data) with
           accounts := db.accounts.map
             (AccountModel.applyIncrement data.accountId data.amount) }) := by
  have hamt' : ¬ data.amount ≤ 0 := by omega
  have hfind' := hfind
  unfold AccountModel.findByUserIdAndId at hfind'
  have hmem := List.mem_of_find?_eq_some hfind'
  have hpred := List.find?_some hfind'
  have hprop : acct.id = data.accountId ∧ acct.userId = userId := by
    simpa using hpred
  have hany : ((TransactionModel.insert db (depositCreateData data)).accounts).any
      (fun a => decide (a.id = data.accountId)) = true := by
    simp only [TransactionModel.insert_accounts]
    exact List.any_eq_true.mpr ⟨acct, hmem, by simp [hprop.1]⟩
  have hupd := AccountModel.updateBalance_isSome
    (TransactionModel.insert db (depositCreateData data)) data.accountId
    data.amount hany
  unfold TransactionService.deposit
  simp [hu, hacc, hamt', hfind, hupd]

/-- Deterministic run of a valid withdrawal: it succeeds unconditionally
(no balance check) and decrements the account. -/
theorem TransactionService.withdraw_run (db : DB) (userId : String)
    (data : DepositData) (acct : Account)
    (hu : userId ≠ "") (hacc : data.accountId ≠ "") (hamt : 0 < data.amount)
    (hfind : AccountModel.findByUserIdAndId db userId data.accountId
      = some acct) :
    TransactionService.withdraw userId data none db
      = (ServiceResult.ok (TransactionModel.newTxn db (withdrawCreateData data)),
         { TransactionModel.insert db (withdrawCreateData data) with
           accounts := db.accounts.map
             (AccountModel.applyIncrement data.accountId (-data.amount)) }) := by
  have hamt' : ¬ data.amount ≤ 0 := by omega
  have hfind' := hfind
  unfold AccountModel.findByUserIdAndId at hfind'
  have hmem := List.mem_of_find?_eq_some hfind'
  have hpred := List.find?_some hfind'
  have hprop : acct.id = data.accountId ∧ acct.userId = userId := by
    simpa using hpred
  have hany : ((TransactionModel.insert db (withdrawCreateData data)).accounts).any
      (fun a => decide (a.id = data.accountId)) = true := by
    simp only [TransactionModel.insert_accounts]
    exact List.any_eq_true.mpr ⟨acct, hmem, by simp [hprop.1]⟩
  have hupd := AccountModel.updateBalance_isSome
    (TransactionModel.insert db (withdrawCreateData data)) data.accountId
    (-data.amount) hany
  unfold TransactionService.withdraw
  simp [hu, hacc, hamt', hfind, hupd]

/-- Claim C10: on an existing owned account and positive amount, deposit
followed by withdrawal of the same amount (and vice versa) both succeed
and restore every account row — in particular the balance — exactly. -/
theorem deposit_withdraw_inverse (db : DB) (userId : String)
    (data : DepositData) (acct : Account)
    (hu : userId ≠ "") (hacc : data.accountId ≠ "") (hamt : 0 < data.amount)
    (hfind : AccountModel.findByUserIdAndId db userId data.accountId
      = some acct) :
    ((TransactionService.deposit userId data none db).1.isOk = true ∧
     (TransactionService.withdraw userId data none
        (TransactionService.deposit userId data none db).2).1.isOk = true ∧
     (TransactionService.withdraw userId data none
        (TransactionService.deposit userId data none db).2).2.accounts
       = db.accounts) ∧
    ((TransactionService.withdraw userId data none db).1.isOk = true ∧
     (TransactionService.deposit userId data none
        (TransactionService.withdraw userId data none db).2).1.isOk = true ∧
     (TransactionService.deposit userId data none
        (TransactionService.withdraw userId data none db).2).2.accounts
       = db.accounts) := by
  have hfindD : AccountModel.findByUserIdAndId
      { TransactionModel.insert db (depositCreateData data) with
        accounts := db.accounts.map
          (AccountModel.applyIncrement data.accountId data.amount) }
      userId data.accountId
      = some (AccountModel.applyIncrement data.accountId data.amount acct) := by
    unfold AccountModel.findByUserIdAndId at hfind ⊢
    show (db.accounts.map
      (AccountModel.applyIncrement data.accountId data.amount)).find? _ = _
    rw [find?_id_userId_map_applyIncrement, hfind]
    rfl
  have hfindW : AccountModel.findByUserIdAndId
      { TransactionModel.insert db (withdrawCreateData data) with
        accounts := db.accounts.map
          (AccountModel.applyIncrement data.accountId (-data.amount)) }
      userId data.accountId
      = some (AccountModel.applyIncrement data.accountId (-data.amount) acct) := by
    unfold AccountModel.findByUserIdAndId at hfind ⊢
    show (db.accounts.map
      (AccountModel.applyIncrement data.accountId (-data.amount))).find? _ = _
    rw [find?_id_userId_map_applyIncrement, hfind]
    rfl
  have hd := TransactionService.deposit_run db userId data acct hu hacc hamt hfind
  have hw := TransactionService.withdraw_run db userId data acct hu hacc hamt hfind
  constructor
  · rw [hd]
    have hw2 := TransactionService.withdraw_run
      { TransactionModel.insert db (depositCreateData data) with
        accounts := db.accounts.map
          (AccountModel.applyIncrement data.accountId data.amount) }
      userId data
      (AccountModel.applyIncrement data.accountId data.amount acct)
      hu hacc hamt hfindD
    rw [hw2]
    refine ⟨rfl, rfl, ?_⟩
    show (db.accounts.map
        (AccountModel.applyIncrement data.accountId data.amount)).map
        (AccountModel.applyIncrement data.accountId (-data.amount))
      = db.accounts
    exact map_applyIncrement_cancel db.accounts data.accountId data.amount
  · rw [hw]
    have hd2 := TransactionService.deposit_run
      { TransactionModel.insert db (withdrawCreateData data) with
        accounts := db.accounts.map
          (AccountModel.applyIncrement data.accountId (-data.amount)) }
      userId data
      (AccountModel.applyIncrement data.accountId (-data.amount) acct)
      hu hacc hamt hfindW
    rw [hd2]
    refine ⟨rfl, rfl, ?_⟩
    show (db.accounts.map
        (AccountModel.applyIncrement data.accountId (-data.amount))).map
        (AccountModel.applyIncrement data.accountId data.amount)
      = db.accounts
    have := map_applyIncrement_cancel db.accounts data.accountId (-data.amount)
    simpa using this

/-- Witness for C10 at a concrete store and amount. -/
theorem deposit_withdraw_inverse_witness :
    ((TransactionService.deposit "user-1"
        { accountId := "acct-1", amount := 7 } none (baseDb 100 10)).1.isOk
          = true ∧
     (TransactionService.withdraw "user-1"
        { accountId := "acct-1", amount := 7 } none
        (TransactionService.deposit "user-1"
          { accountId := "acct-1", amount := 7 } none
          (baseDb 100 10)).2).1.isOk = true ∧
     (TransactionService.withdraw "user-1"
        { accountId := "acct-1", amount := 7 } none
        (TransactionService.deposit "user-1"
          { accountId := "acct-1", amount := 7 } none
          (baseDb 100 10)).2).2.accounts = (baseDb 100 10).accounts) ∧
    ((TransactionService.withdraw "user-1"
        { accountId := "acct-1", amount := 7 } none (baseDb 100 10)).1.isOk
          = true ∧
     (TransactionService.deposit "user-1"
        { accountId := "acct-1", amount := 7 } none
        (TransactionService.withdraw "user-1"
          { accountId := "acct-1", amount := 7 } none
          (baseDb 100 10)).2).1.isOk = true ∧
     (TransactionService.deposit "user-1"
        { accountId := "acct-1", amount := 7 } none
        (TransactionService.withdraw "user-1"
          { accountId := "acct-1", amount := 7 } none
          (baseDb 100 10)).2).2.accounts = (baseDb 100 10).accounts) :=
  deposit_withdraw_inverse (baseDb 100 10) "user-1"
    { accountId := "acct-1", amount := 7 } (account1 100)
    (by decide) (by decide) (by decide) (by decide)

end DigitalWallet
namespace DigitalWallet

/-- Deterministic run of a valid transfer: with the source owned and
funded, the target resolved and distinct, it succeeds; its effect is the
inserted TRANSFER row, the source debit and the target credit. -/
theorem TransactionService.transfer_run (db : DB) (userId : String)
    (data : TransferData) (src tgt : Account)
    (hu : userId ≠ "") (hs : data.sourceAccountId ≠ "")
    (he : data.targetEmail ≠ "") (hamt : 0 < data.amount)
    (hvalid : Validator.isValidEmail data.targetEmail = true)
    (hsrc : AccountModel.findByUserIdAndId db userId data.sourceAccountId
      = some src)
    (hbal : ¬ src.balance < data.amount)
    (htgt : AccountModel.findByUserEmail db data.targetEmail = some tgt)
    (hne : data.sourceAccountId ≠ tgt.id) :
    TransactionService.transfer userId data none db
      = (ServiceResult.ok (TransactionModel.newTxn db
          (transferCreateData data tgt.id)),
         { TransactionModel.insert db (transferCreateData data tgt.id) with
           accounts := (db.accounts.map (AccountModel.applyIncrement
               data.sourceAccountId (-data.amount))).map
             (AccountModel.applyIncrement tgt.id data.amount) }) := by
  have hamt' : ¬ data.amount ≤ 0 := by omega
  have hsrc' := hsrc
  unfold AccountModel.findByUserIdAndId at hsrc'
  have hsrcmem := List.mem_of_find?_eq_some hsrc'
  have hsrcpred := List.find?_some hsrc'
  have hsrcprop : src.id = data.sourceAccountId ∧ src.userId = userId := by
    simpa using hsrcpred
  have htgt' := htgt
  unfold AccountModel.findByUserEmail at htgt'
  have htgtmem := List.mem_of_find?_eq_some htgt'
  have hany1 : ((TransactionModel.insert db
        (transferCreateData data tgt.id)).accounts).any (fun a =>
          decide (a.id = data.sourceAccountId)) = true := by
    simp only [TransactionModel.insert_accounts]
    exact List.any_eq_true.mpr ⟨src, hsrcmem, by simp [hsrcprop.1]⟩
  have hupd1 := AccountModel.updateBalance_isSome
    (TransactionModel.insert db (transferCreateData data tgt.id))
    data.sourceAccountId (-data.amount) hany1
  have hany2 : (({ TransactionModel.insert db
          (transferCreateData data tgt.id) with
        accounts := (TransactionModel.insert db
          (transferCreateData data tgt.id)).accounts.map
            (AccountModel.applyIncrement data.sourceAccountId
              (-data.amount)) } : DB).accounts).any (fun a =>
          decide (a.id = tgt.id)) = true := by
    show (((TransactionModel.insert db
        (transferCreateData data tgt.id)).accounts.map
          (AccountModel.applyIncrement data.sourceAccountId
            (-data.amount))).any (fun a => decide (a.id = tgt.id))) = true
    rw [any_id_map_applyIncrement]
    simp only [TransactionModel.insert_accounts]
    exact List.any_eq_true.mpr ⟨tgt, htgtmem, by simp⟩
  have hupd2 := AccountModel.updateBalance_isSome
    { TransactionModel.insert db (transferCreateData data tgt.id) with
      accounts := (TransactionModel.insert db
        (transferCreateData data tgt.id)).accounts.map
          (AccountModel.applyIncrement data.sourceAccountId
            (-data.amount)) }
    tgt.id data.amount hany2
  simp only [TransactionModel.insert_accounts, TransactionModel.insert_users]
    at hupd1 hupd2
  unfold TransactionService.transfer
  simp [hu, hs, he, hamt', hvalid, hsrc, hbal, htgt, hne, hupd1, hupd2]

/-- Claim C8: a valid transfer succeeds and conserves the sum of the
source and target balances (account ids unique, per the schema's primary
key). -/
theorem transfer_balance_conservation (db : DB) (userId : String)
    (data : TransferData) (src tgt : Account)
    (hu : userId ≠ "") (hs : data.sourceAccountId ≠ "")
    (he : data.targetEmail ≠ "") (hamt : 0 < data.amount)
    (hvalid : Validator.isValidEmail data.targetEmail = true)
    (hsrc : AccountModel.findByUserIdAndId db userId data.sourceAccountId
      = some src)
    (hbal : ¬ src.balance < data.amount)
    (htgt : AccountModel.findByUserEmail db data.targetEmail = some tgt)
    (hne : data.sourceAccountId ≠ tgt.id)
    (hNodup : (db.accounts.map (fun a => a.id)).Nodup) :
    (TransactionService.transfer userId data none db).1.isOk = true ∧
    balanceOf (TransactionService.transfer userId data none db).2
        data.sourceAccountId
      + balanceOf (TransactionService.transfer userId data none db).2 tgt.id
      = balanceOf db data.sourceAccountId + balanceOf db tgt.id := by
  rw [TransactionService.transfer_run db userId data src tgt hu hs he hamt
    hvalid hsrc hbal htgt hne]
  have hsrc' := hsrc
  unfold AccountModel.findByUserIdAndId at hsrc'
  have hsrcmem := List.mem_of_find?_eq_some hsrc'
  have hsrcpred := List.find?_some hsrc'
  have hsrcprop : src.id = data.sourceAccountId ∧ src.userId = userId := by
    simpa using hsrcpred
  have htgt' := htgt
  unfold AccountModel.findByUserEmail at htgt'
  have htgtmem := List.mem_of_find?_eq_some htgt'
  refine ⟨rfl, ?_⟩
  simp only [balanceOf]
  show balSum ((db.accounts.map (AccountModel.applyIncrement
        data.sourceAccountId (-data.amount))).map
          (AccountModel.applyIncrement tgt.id data.amount))
        data.sourceAccountId
    + balSum ((db.accounts.map (AccountModel.applyIncrement
        data.sourceAccountId (-data.amount))).map
          (AccountModel.applyIncrement tgt.id data.amount)) tgt.id
    = balSum db.accounts data.sourceAccountId + balSum db.accounts tgt.id
  rw [balSum_map_of_ne _ hne data.amount]
  rw [balSum_map_self db.accounts (-data.amount) hNodup src hsrcmem
    hsrcprop.1]
  rw [balSum_map_self (db.accounts.map (AccountModel.applyIncrement
      data.sourceAccountId (-data.amount))) data.amount
    (by rw [map_id_applyIncrement]; exact hNodup)
    (AccountModel.applyIncrement data.sourceAccountId (-data.amount) tgt)
    (List.mem_map.mpr ⟨tgt, htgtmem, rfl⟩) (by simp)]
  rw [balSum_map_of_ne db.accounts (fun hcontra => hne hcontra.symm)
    (-data.amount)]
  omega

/-- Witness for C8: the concrete transfer of 40 from balance 100 to
balance 10 conserves 110. -/
theorem transfer_balance_conservation_witness :
    (TransactionService.transfer "user-1"
        { sourceAccountId := "acct-1", targetEmail := "u2@mail.com"
          amount := 40 } none (baseDb 100 10)).1.isOk = true ∧
    balanceOf (TransactionService.transfer "user-1"
        { sourceAccountId := "acct-1", targetEmail := "u2@mail.com"
          amount := 40 } none (baseDb 100 10)).2 "acct-1"
      + balanceOf (TransactionService.transfer "user-1"
        { sourceAccountId := "acct-1", targetEmail := "u2@mail.com"
          amount := 40 } none (baseDb 100 10)).2 "acct-2"
      = balanceOf (baseDb 100 10) "acct-1"
        + balanceOf (baseDb 100 10) "acct-2" :=
  transfer_balance_conservation (baseDb 100 10) "user-1"
    { sourceAccountId := "acct-1", targetEmail := "u2@mail.com"
      amount := 40 } (account1 100) (account2 10)
    (by decide) (by decide) (by decide) (by decide) (by decide) (by decide)
    (by decide) (by decide) (by decide) (by decide)

end DigitalWallet
namespace DigitalWallet

/-- Every store a deposit can produce has the old transaction list, or that
list with one new row appended, and the new row is no reversal link. -/
theorem deposit_transactions_shape (userId : String) (data : DepositData)
    (failAt : Option Nat) (db : DB) :
    (TransactionService.deposit userId data failAt db).2.transactions
        = db.transactions ∨
    ∃ t, (TransactionService.deposit userId data failAt db).2.transactions
        = db.transactions ++ [t] ∧ t.reversedTransactionId = none := by
  unfold TransactionService.deposit
  split
  · left; rfl
  split
  · left; rfl
  split
  · left; rfl
  split
  · left; rfl
  split
  · left; rfl
  split
  · right; exact ⟨_, rfl, rfl⟩
  split
  · right; exact ⟨_, rfl, rfl⟩
  rename_i db2 hupd
  have h2 := AccountModel.updateBalance_some hupd
  subst h2
  right; exact ⟨_, rfl, rfl⟩

/-- Same shape fact for withdrawals. -/
theorem withdraw_transactions_shape (userId : String) (data : DepositData)
    (failAt : Option Nat) (db : DB) :
    (TransactionService.withdraw userId data failAt db).2.transactions
        = db.transactions ∨
    ∃ t, (TransactionService.withdraw userId data failAt db).2.transactions
        = db.transactions ++ [t] ∧ t.reversedTransactionId = none := by
  unfold TransactionService.withdraw
  split
  · left; rfl
  split
  · left; rfl
  split
  · left; rfl
  split
  · left; rfl
  split
  · left; rfl
  split
  · right; exact ⟨_, rfl, rfl⟩
  split
  · right; exact ⟨_, rfl, rfl⟩
  rename_i db2 hupd
  have h2 := AccountModel.updateBalance_some hupd
  subst h2
  right; exact ⟨_, rfl, rfl⟩

/-- Same shape fact for transfers (manual case chain; the row a transfer
appends carries no reversal link either). -/
theorem transfer_transactions_shape (userId : String) (data : TransferData)
    (failAt : Option Nat) (db : DB) :
    (TransactionService.transfer userId data failAt db).2.transactions
        = db.transactions ∨
    ∃ t, (TransactionService.transfer userId data failAt db).2.transactions
        = db.transactions ++ [t] ∧ t.reversedTransactionId = none := by
  unfold TransactionService.transfer
  by_cases c1 : userId = "" ∨ data.sourceAccountId = "" ∨ data.targetEmail = ""
  · rw [if_pos c1]; left; rfl
  rw [if_neg c1]
  by_cases c2 : data.amount ≤ 0
  · rw [if_pos c2]; left; rfl
  rw [if_neg c2]
  by_cases c3 : ¬ Validator.isValidEmail data.targetEmail = true
  · rw [if_pos c3]; left; rfl
  rw [if_neg c3]
  by_cases c4 : failAt = some 0
  · rw [if_pos c4]; left; rfl
  rw [if_neg c4]
  cases hsrc : AccountModel.findByUserIdAndId db userId data.sourceAccountId with
  | none => simp only [hsrc]; left; trivial
  | some src =>
    simp only [hsrc]
    by_cases c5 : src.balance < data.amount
    · rw [if_pos c5]; left; rfl
    rw [if_neg c5]
    by_cases c6 : failAt = some 1
    · rw [if_pos c6]; left; rfl
    rw [if_neg c6]
    cases htgt : AccountModel.findByUserEmail db data.targetEmail with
    | none => simp only [htgt]; left; trivial
    | some tgt =>
      simp only [htgt]
      by_cases c7 : data.sourceAccountId = tgt.id
      · rw [if_pos c7]; left; rfl
      rw [if_neg c7]
      by_cases c8 : failAt = some 2
      · rw [if_pos c8]; left; rfl
      rw [if_neg c8]
      by_cases c9 : failAt = some 3
      · rw [if_pos c9]; right; exact ⟨_, rfl, rfl⟩
      rw [if_neg c9]
      cases hupd1 : AccountModel.updateBalance
          (TransactionModel.insert db (transferCreateData data tgt.id))
          data.sourceAccountId (-data.amount) with
      | none => simp only [hupd1]; right; exact ⟨_, rfl, rfl⟩
      | some db2 =>
        simp only [hupd1]
        have h2 := AccountModel.updateBalance_some hupd1
        subst h2
        by_cases c10 : failAt = some 4
        · rw [if_pos c10]; right; exact ⟨_, rfl, rfl⟩
        rw [if_neg c10]
        cases hupd2 : AccountModel.updateBalance
            { TransactionModel.insert db (transferCreateData data tgt.id) with
              accounts := (TransactionModel.insert db
                (transferCreateData data tgt.id)).accounts.map
                  (AccountModel.applyIncrement data.sourceAccountId
                    (-data.amount)) }
            tgt.id data.amount with
        | none => simp only [hupd2]; right; exact ⟨_, rfl, rfl⟩
        | some db3 =>
          simp only [hupd2]
          have h3 := AccountModel.updateBalance_some hupd2
          subst h3
          right; exact ⟨_, rfl, rfl⟩

/-- Every store a reversal can produce has the old transaction list, or —
only when the original was not already reversed — that list with one new
REVERSAL row appended, linked to the reversed transaction. -/
theorem reverseTransaction_transactions_shape (userId transactionId : String)
    (failAt : Option Nat) (db : DB) (res : ServiceResult × DB)
    (h : TransactionService.reverseTransaction userId transactionId failAt db
      = res) :
    res.2.transactions = db.transactions ∨
    (TransactionModel.hasBeenReversed db transactionId = false ∧
     ∃ t, res.2.transactions = db.transactions ++ [t] ∧
        t.type = TxnType.REVERSAL ∧
        t.reversedTransactionId = some transactionId) := by
  unfold TransactionService.reverseTransaction at h
  split at h
  · subst h; left; rfl
  split at h
  · subst h; left; rfl
  split at h
  · subst h; left; rfl
  split at h
  · subst h; left; rfl
  split at h
  · subst h; left; rfl
  split at h
  · subst h; left; rfl
  rename_i hnr
  have hnr2 : TransactionModel.hasBeenReversed db transactionId = false := by
    simpa using hnr
  split at h
  · subst h; left; rfl
  split at h
  · subst h; left; rfl
  split at h
  · subst h; left; rfl
  split at h
  · subst h; right; exact ⟨hnr2, _, rfl, rfl, rfl⟩
  split at h
  · subst h; right; exact ⟨hnr2, _, rfl, rfl, rfl⟩
  rename_i db2 hupd1
  have h2 := AccountModel.updateBalance_some hupd1
  subst h2
  split at h
  · subst h; right; exact ⟨hnr2, _, rfl, rfl, rfl⟩
  split at h
  · subst h; right; exact ⟨hnr2, _, rfl, rfl, rfl⟩
  rename_i db3 hupd2
  have h3 := AccountModel.updateBalance_some hupd2
  subst h3
  subst h
  right; exact ⟨hnr2, _, rfl, rfl, rfl⟩

/-- Account creation leaves the transaction table untouched. -/
theorem create_transactions_shape (db : DB) (userId : String) :
    (AccountService.create db userId).2.transactions = db.transactions := rfl

end DigitalWallet
namespace DigitalWallet

/-- One step of the system: any of the four ledger operations (with any
arguments and any storage-failure point) or an account creation. -/
inductive Step : DB → DB → Prop where
  | deposit (db : DB) (userId : String) (data : DepositData)
      (failAt : Option Nat) :
      Step db (TransactionService.deposit userId data failAt db).2
  | withdraw (db : DB) (userId : String) (data : DepositData)
      (failAt : Option Nat) :
      Step db (TransactionService.withdraw userId data failAt db).2
  | transfer (db : DB) (userId : String) (data : TransferData)
      (failAt : Option Nat) :
      Step db (TransactionService.transfer userId data failAt db).2
  | reverse (db : DB) (userId transactionId : String) (failAt : Option Nat) :
      Step db (TransactionService.reverseTransaction userId transactionId
        failAt db).2
  | createAccount (db : DB) (userId : String) :
      Step db (AccountService.create db userId).2

/-- States reachable from a given store through the service operations. -/
def Reachable (db0 db : DB) : Prop := Relation.ReflTransGen Step db0 db

theorem reversalCount_append_nolink {l1 l2 : List Txn} {s : String}
    (hno : ∀ t ∈ l2, t.reversedTransactionId = none) :
    ((l1 ++ l2).filter (fun t => decide (t.type = TxnType.REVERSAL ∧
        t.reversedTransactionId = some s))).length
      = (l1.filter (fun t => decide (t.type = TxnType.REVERSAL ∧
          t.reversedTransactionId = some s))).length := by
  rw [List.filter_append]
  have : l2.filter (fun t => decide (t.type = TxnType.REVERSAL ∧
      t.reversedTransactionId = some s)) = [] := by
    rw [List.filter_eq_nil_iff]
    intro t ht
    simp [hno t ht]
  rw [this]
  simp

/-- Pointwise preservation of the at-most-one-reversal bound by any step. -/
theorem reversalCount_le_one_step {a b : DB} (hstep : Step a b) {s : String}
    (hs : reversalCount a s ≤ 1) : reversalCount b s ≤ 1 := by
  cases hstep with
  | deposit u d fa =>
    rcases deposit_transactions_shape u d fa a with hsh | ⟨t, hsh, href⟩
    · unfold reversalCount at *
      rw [hsh]
      exact hs
    · unfold reversalCount at *
      rw [hsh, reversalCount_append_nolink (by simp [href])]
      exact hs
  | withdraw u d fa =>
    rcases withdraw_transactions_shape u d fa a with hsh | ⟨t, hsh, href⟩
    · unfold reversalCount at *
      rw [hsh]
      exact hs
    · unfold reversalCount at *
      rw [hsh, reversalCount_append_nolink (by simp [href])]
      exact hs
  | transfer u d fa =>
    rcases transfer_transactions_shape u d fa a with hsh | ⟨t, hsh, href⟩
    · unfold reversalCount at *
      rw [hsh]
      exact hs
    · unfold reversalCount at *
      rw [hsh, reversalCount_append_nolink (by simp [href])]
      exact hs
  | reverse u tid fa =>
    rcases reverseTransaction_transactions_shape u tid fa a _ rfl with
      hsh | ⟨hnr, t, hsh, htype, href⟩
    · unfold reversalCount at *
      rw [hsh]
      exact hs
    · by_cases hstid : s = tid
      · subst hstid
        have hc0 : reversalCount a s = 0 := by
          unfold TransactionModel.hasBeenReversed at hnr
          simp only [decide_eq_false_iff_not, not_lt, Nat.le_zero] at hnr
          exact hnr
        unfold reversalCount at *
        rw [hsh, List.filter_append, List.length_append, hc0]
        have : (([t].filter (fun tx => decide (tx.type = TxnType.REVERSAL ∧
            tx.reversedTransactionId = some s)))).length ≤ 1 := by
          exact (List.length_filter_le _ _).trans (by simp)
        omega
      · unfold reversalCount at *
        rw [hsh, List.filter_append]
        have : ([t].filter (fun tx => decide (tx.type = TxnType.REVERSAL ∧
            tx.reversedTransactionId = some s))) = [] := by
          rw [List.filter_eq_nil_iff]
          intro x hx
          rcases List.mem_singleton.mp hx with rfl
          simp [href]
          intro _
          exact fun hcontra => hstid (hcontra.symm)
        rw [this]
        simpa using hs
  | createAccount u =>
    unfold reversalCount at *
    rw [create_transactions_shape]
    exact hs

/-- A successful reversal pins down the whole branch structure: the
original exists, is a TRANSFER, was not yet reversed, and the result store
appends exactly the new linked REVERSAL row. -/
theorem reverseTransaction_ok_spec (db : DB) (userId transactionId : String)
    (r : Txn) (db1 : DB)
    (h : TransactionService.reverseTransaction userId transactionId none db
      = (ServiceResult.ok r, db1)) :
    userId ≠ "" ∧ transactionId ≠ "" ∧
    ∃ t, TransactionModel.findById db transactionId = some t ∧
      t.type = TxnType.TRANSFER ∧
      TransactionModel.hasBeenReversed db transactionId = false ∧
      r = TransactionModel.newTxn db (reversalCreateData transactionId t) ∧
      db1.transactions = db.transactions ++ [r] := by
  unfold TransactionService.reverseTransaction at h
  split at h
  · simp at h
  rename_i hids
  push_neg at hids
  split at h
  · simp at h
  split at h
  · simp at h
  rename_i t hfind
  split at h
  · simp at h
  rename_i htype
  rw [not_not] at htype
  split at h
  · simp at h
  split at h
  · simp at h
  rename_i hnr
  have hnr2 : TransactionModel.hasBeenReversed db transactionId = false := by
    simpa using hnr
  split at h
  · simp at h
  split at h
  · simp at h
  rename_i acct hacct
  split at h
  · simp at h
  split at h
  · simp at h
  split at h
  · simp at h
  rename_i db2 hupd1
  split at h
  · simp at h
  split at h
  · simp at h
  rename_i db3 hupd2
  simp only [Prod.mk.injEq, ServiceResult.ok.injEq] at h
  obtain ⟨hr, hdb⟩ := h
  subst hdb
  subst hr
  have h2 := AccountModel.updateBalance_some hupd1
  subst h2
  have h3 := AccountModel.updateBalance_some hupd2
  subst h3
  exact ⟨hids.1, hids.2, t, hfind, htype, hnr2, rfl, rfl⟩

/-- Claim C4: (a) in every state reachable from an empty ledger, at most
one REVERSAL row references any given transaction; (b) once a reversal of
a transfer succeeds, a second reversal attempt by any caller fails with
the already-reversed error and changes nothing. -/
theorem reversal_at_most_once :
    (∀ db0 db : DB, db0.transactions = [] → Reachable db0 db →
      ∀ tid : String, reversalCount db tid ≤ 1) ∧
    (∀ (db : DB) (userId userId2 transactionId : String) (r : Txn) (db1 : DB),
      userId2 ≠ "" →
      TransactionService.reverseTransaction userId transactionId none db
        = (ServiceResult.ok r, db1) →
      TransactionService.reverseTransaction userId2 transactionId none db1
        = (ServiceResult.err ERROR_MESSAGES.TRANSACTION_ALREADY_REVERSED,
           db1)) := by
  constructor
  · intro db0 db h0 hreach tid
    induction hreach with
    | refl =>
      unfold reversalCount
      rw [h0]
      simp
    | tail _hab hstep ih => exact reversalCount_le_one_step hstep ih
  · intro db userId userId2 transactionId r db1 hu2 h
    obtain ⟨hu, ht, t, hfind, htype, hnr, hr, htrans⟩ :=
      reverseTransaction_ok_spec db userId transactionId r db1 h
    have hfind1 : TransactionModel.findById db1 transactionId = some t := by
      unfold TransactionModel.findById at hfind ⊢
      rw [htrans, List.find?_append, hfind]
      rfl
    have hpred : (fun tx => decide (tx.type = TxnType.REVERSAL ∧
        tx.reversedTransactionId = some transactionId)) r = true := by
      subst hr
      simp [TransactionModel.newTxn, reversalCreateData]
    have hcount : TransactionModel.hasBeenReversed db1 transactionId
        = true := by
      unfold TransactionModel.hasBeenReversed reversalCount
      rw [htrans, List.filter_append]
      have hfr : [r].filter (fun tx => decide (tx.type = TxnType.REVERSAL ∧
          tx.reversedTransactionId = some transactionId)) = [r] := by
        simp only [List.filter_cons, hpred, List.filter_nil, if_true]
      rw [hfr]
      simp
    have htype' : ¬ (t.type ≠ TxnType.TRANSFER) := by simp [htype]
    unfold TransactionService.reverseTransaction
    simp [hu2, ht, hfind1, htype', hcount]

/-- Witness for C4: the bound holds in a concrete freshly-initialised
store, and after the concrete successful reversal in `dbPoorReceiver` a
second reversal attempt returns the already-reversed error. -/
theorem reversal_at_most_once_witness :
    reversalCount (baseDb 100 10) "txn-0" ≤ 1 ∧
    TransactionService.reverseTransaction "user-2" "txn-0" none
        (TransactionService.reverseTransaction "user-1" "txn-0" none
          dbPoorReceiver).2
      = (ServiceResult.err ERROR_MESSAGES.TRANSACTION_ALREADY_REVERSED,
         (TransactionService.reverseTransaction "user-1" "txn-0" none
           dbPoorReceiver).2) :=
  ⟨reversal_at_most_once.1 (baseDb 100 10) (baseDb 100 10) rfl
      Relation.ReflTransGen.refl "txn-0",
   reversal_at_most_once.2 dbPoorReceiver "user-1" "user-2" "txn-0"
     (TransactionModel.newTxn dbPoorReceiver
       (reversalCreateData "txn-0" transferTxn))
     (TransactionService.reverseTransaction "user-1" "txn-0" none
       dbPoorReceiver).2
     (by decide) (by decide)⟩

end DigitalWallet
namespace DigitalWallet

/-- The `reversingTransactions` annotation Prisma attaches to a row: all
rows whose `reversedTransactionId` points at it. -/
def reversingOf (db : DB) (t : Txn) : List Txn :=
  db.transactions.filter (fun r => decide (r.reversedTransactionId = some t.id))

/-- The `where` clause of `TransactionModel.findByUserId`: the user's
account is the filing account, the sender account, or the receiver
account of the row (relations resolved through the account table). -/
def participates (db : DB) (userId : String) (t : Txn) : Bool :=
  (match db.accounts.find? (fun a => decide (a.id = t.accountId)) with
   | some a => decide (a.userId = userId)
   | none => false) ||
  (match t.senderAccountId with
   | some sid =>
     match db.accounts.find? (fun a => decide (a.id = sid)) with
     | some a => decide (a.userId = userId)
     | none => false
   | none => false) ||
  (match t.receiverAccountId with
   | some rid =>
     match db.accounts.find? (fun a => decide (a.id = rid)) with
     | some a => decide (a.userId = userId)
     | none => false
   | none => false)

/-- Admissible results of `TransactionModel.findByUserId`: the query asks
for the matching rows with their `reversingTransactions` annotations,
ordered by `createdAt` descending and nothing more — the order of rows
with equal `createdAt` is left unspecified by the query, so the result is
any permutation of the matching rows that is sorted by `createdAt`
descending, annotated. -/
def TransactionModel.findByUserIdAdmits (db : DB) (userId : String)
    (out : List (Txn × List Txn)) : Prop :=
  (out.map Prod.fst).Perm (db.transactions.filter (participates db userId)) ∧
  List.Pairwise (fun x y => y.1.createdAt ≤ x.1.createdAt) out ∧
  ∀ p ∈ out, p.2 = reversingOf db p.1

/-- The claim's characterisation of ListForUser, amended: exactly the
transactions the user participates in, each once, annotated with their
reversing transactions, sorted by `createdAt` descending — with no
guaranteed tie-break. -/
def ListForUserSpec (db : DB) (userId : String)
    (out : List (Txn × List Txn)) : Prop :=
  (∀ t : Txn, t ∈ out.map Prod.fst ↔
    (t ∈ db.transactions ∧ participates db userId t = true)) ∧
  (out.map Prod.fst).Nodup ∧
  List.Pairwise (fun x y => y.1.createdAt ≤ x.1.createdAt) out ∧
  ∀ p ∈ out, p.2 = reversingOf db p.1

/-- Two DEPOSIT rows with the same timestamp, for the tie counterexample. -/
def tieTxnA : Txn :=
  { id := "txn-a", amount := 1, type := TxnType.DEPOSIT
    description := "Depósito", createdAt := 5, accountId := "acct-1"
    senderAccountId := none, receiverAccountId := none
    reversedTransactionId := none }

def tieTxnB : Txn :=
  { id := "txn-b", amount := 2, type := TxnType.DEPOSIT
    description := "Depósito", createdAt := 5, accountId := "acct-1"
    senderAccountId := none, receiverAccountId := none
    reversedTransactionId := none }

/-- Store with the two tied rows. -/
def dbTies : DB := { baseDb 100 10 with transactions := [tieTxnA, tieTxnB] }

def outAB : List (Txn × List Txn) := [(tieTxnA, []), (tieTxnB, [])]

def outBA : List (Txn × List Txn) := [(tieTxnB, []), (tieTxnA, [])]

/-- Counterexample to the tie-break clause of claim C9: both orders of the
two rows tied on `createdAt` are admissible results of the query, so no
id tie-break (in particular not a stable ascending-id one, which `outBA`
violates) is guaranteed. -/
theorem findByUserId_tiebreak_not_determined :
    TransactionModel.findByUserIdAdmits dbTies "user-1" outAB ∧
    TransactionModel.findByUserIdAdmits dbTies "user-1" outBA ∧
    outAB ≠ outBA ∧
    ¬ (∀ out1 out2, TransactionModel.findByUserIdAdmits dbTies "user-1" out1 →
        TransactionModel.findByUserIdAdmits dbTies "user-1" out2 →
        out1 = out2) := by
  have hAB : TransactionModel.findByUserIdAdmits dbTies "user-1" outAB :=
    ⟨by decide, by decide, by decide⟩
  have hBA : TransactionModel.findByUserIdAdmits dbTies "user-1" outBA :=
    ⟨by decide, by decide, by decide⟩
  refine ⟨hAB, hBA, by decide, ?_⟩
  intro hall
  exact absurd (hall outAB outBA hAB hBA) (by decide)

/-- Claim C9 (amended): over a table with unique transaction ids, the
admissible results of `TransactionModel.findByUserId` are exactly the
lists satisfying the ListForUser characterisation without a tie-break
guarantee. -/
theorem findByUserId_matches_listForUser (db : DB) (userId : String)
    (hNodup : (db.transactions.map (fun t => t.id)).Nodup)
    (out : List (Txn × List Txn)) :
    TransactionModel.findByUserIdAdmits db userId out ↔
      ListForUserSpec db userId out := by
  have hnd : db.transactions.Nodup := List.Nodup.of_map _ hNodup
  have hfil : (db.transactions.filter (participates db userId)).Nodup :=
    hnd.filter _
  constructor
  · rintro ⟨hperm, hsort, hann⟩
    refine ⟨?_, ?_, hsort, hann⟩
    · intro t
      rw [hperm.mem_iff, List.mem_filter]
    · exact hperm.nodup_iff.mpr hfil
  · rintro ⟨hmem, hndout, hsort, hann⟩
    refine ⟨?_, hsort, hann⟩
    rw [List.perm_ext_iff_of_nodup hndout hfil]
    intro t
    rw [hmem t, List.mem_filter]

/-- Witness for amended C9 at a concrete store and output. -/
theorem findByUserId_matches_listForUser_witness :
    TransactionModel.findByUserIdAdmits dbTies "user-1" outAB ↔
      ListForUserSpec dbTies "user-1" outAB :=
  findByUserId_matches_listForUser dbTies "user-1" (by decide) outAB

end DigitalWallet
